import Mathlib

/-!
# version_file: a disk-backed ring of versions

Shallow embedding of `src/version_file.go`.

* Go `int` is modelled by `Int` with explicit two-complement wrap-around at 64 bits
  (`wrap`) after every addition and subtraction.
* The directory of the ring is modelled by `Disk`: the file `<dir>/<n>.json` is the
  binding of slot `n`.  A script of fault flags lets any file operation fail.
* A Go `error` is a value of `Error`; a run-time panic is the `panic` case of `Result`.
* The collaborators of the ring (SHA-1, `encoding/json`, the validator) are the fields
  of `Env`.  The wall clock and the random source are explicit arguments.
-/

namespace VersionFile

/-! ## Basic types -/

/-- Content of a blob or of a file: a Go byte slice. -/
abbrev Bytes := List (Fin 256)

/-- Wall-clock reading, the value of `time.Now()`. -/
abbrev Time := Nat

/-- Largest Go `int` (64-bit platform). -/
def maxInt : Int := 9223372036854775807

/-- Smallest Go `int` (64-bit platform). -/
def minInt : Int := -9223372036854775808

/-- Result of a Go `int` addition or subtraction whose exact value is `x`. -/
def wrap (x : Int) : Int :=
  (x + 9223372036854775808) % 18446744073709551616 - 9223372036854775808

/-- The integer is a value of the Go type `int`. -/
def isInt (x : Int) : Prop := minInt ≤ x ∧ x ≤ maxInt

instance (x : Int) : Decidable (isInt x) := by
  unfold isInt
  exact inferInstance

/-- Go error values that the ring can return. -/
inductive Error where
  /-- The value of `errors.New msg`. -/
  | new (msg : String)
  /-- The file of this slot does not exist (`os.IsNotExist` holds). -/
  | notExist (slot : Int)
  /-- Any other failure of a file operation on this slot. -/
  | fault (slot : Int)
  /-- The error of `validate.Struct`. -/
  | validation (msg : String)
  /-- The error of `json.Marshal` or `json.Unmarshal`. -/
  | codec (msg : String)
  deriving DecidableEq

/-- Outcome of a call: a value, a returned error, or a run-time panic. -/
inductive Result (α : Type) where
  | ok (a : α)
  | err (e : Error)
  | panic (msg : String)
  deriving DecidableEq

/-- Forget the returned value, keep success, error or panic. -/
def Result.void {α : Type} : Result α → Result Unit
  | .ok _ => .ok ()
  | .err e => .err e
  | .panic m => .panic m

/-- Record `fileInfo`: fingerprint and creation time of one slot. -/
structure fileInfo where
  Sha1 : String
  Time : Time
  deriving DecidableEq

/-- Record `versionFile`.  `Files` is a Go map: `none` is the nil map, `some m` an
allocated map whose bindings are the pairs of `m`, the first pair of a key winning. -/
structure versionFile where
  Version : String
  Dir : String
  Length : Int
  Current : Int
  Left : Int
  Right : Int
  Once : String
  Files : Option (List (String × fileInfo))
  deriving DecidableEq

/-- All four counters are values of the Go type `int`. -/
def versionFile.typed (v : versionFile) : Prop :=
  isInt v.Length ∧ isInt v.Current ∧ isInt v.Left ∧ isInt v.Right

instance (v : versionFile) : Decidable v.typed := by
  unfold versionFile.typed
  exact inferInstance

/-- Ledger entry recorded for a key, if any. -/
def versionFile.entry (v : versionFile) (key : String) : Option fileInfo :=
  match v.Files with
  | none => none
  | some m => m.lookup key

/-- The directory of the ring: `files` binds slot `n` to the content of `<dir>/<n>.json`
(the first pair of a slot wins); `faults` holds one flag per coming file operation, and a
set flag makes that operation fail.  With no flag left every operation runs normally. -/
structure Disk where
  files : List (Int × Bytes)
  faults : List Bool
  deriving DecidableEq

/-- Content of the file of slot `n`, if the file exists. -/
def Disk.content (d : Disk) (n : Int) : Option Bytes := d.files.lookup n

/-- Consume the fault flag of the next file operation. -/
def Disk.tick (d : Disk) : Bool × Disk :=
  match d.faults with
  | [] => (false, d)
  | f :: rest => (f, { d with faults := rest })

/-- Model of `os.Stat` on the file of slot `n`. -/
def Disk.stat (d : Disk) (n : Int) : Disk × Option Error :=
  let t := d.tick
  if t.1 then (t.2, some (.fault n))
  else
    match t.2.content n with
    | none => (t.2, some (.notExist n))
    | some _ => (t.2, none)

/-- Model of `os.ReadFile` on the file of slot `n`. -/
def Disk.readFile (d : Disk) (n : Int) : Disk × Except Error Bytes :=
  let t := d.tick
  if t.1 then (t.2, .error (.fault n))
  else
    match t.2.content n with
    | none => (t.2, .error (.notExist n))
    | some bs => (t.2, .ok bs)

/-- Model of `os.WriteFile` on the file of slot `n`: a failing write leaves the file as
it was. -/
def Disk.writeFile (d : Disk) (n : Int) (bs : Bytes) : Disk × Option Error :=
  let t := d.tick
  if t.1 then (t.2, some (.fault n))
  else ({ t.2 with files := (n, bs) :: t.2.files }, none)

/-- The ring in memory together with its directory. -/
structure Sys where
  v : versionFile
  d : Disk
  deriving DecidableEq

/-- External collaborators of the ring. `marshal` is `json.Marshal` on a `versionFile`
(it cannot fail on this record type), `unmarshal bs v` is `json.Unmarshal(bs, &v)` and
returns the record as the decoder left it, `hash` is the hex SHA-1 digest,
`validateStruct` is `validate.Struct` and `marshalObj` is `json.Marshal` on a caller
object. -/
structure Env where
  Obj : Type
  hash : Bytes → String
  marshal : versionFile → Bytes
  unmarshal : Bytes → versionFile → versionFile × Option Error
  validateStruct : Obj → Option Error
  marshalObj : Obj → Except Error Bytes

/-! ## The methods of `versionFile` -/

/-- Method `right`: the slot after `Current`, wrapping to slot 1. -/
def right (v : versionFile) : Int :=
  let n := wrap (v.Current + 1)
  if n > v.Length then 1 else n

/-- Method `left`: the slot before `Current`, wrapping to slot `Length`. -/
def left (v : versionFile) : Int :=
  let n := wrap (v.Current - 1)
  if n < 1 then v.Length else n

/-- Method `read`. -/
def read (s : Sys) (n : Int) : Sys × Except Error Bytes :=
  let r := s.d.readFile n
  ({ s with d := r.1 }, r.2)

/-- Method `write`. -/
def write (s : Sys) (n : Int) (bs : Bytes) : Sys × Option Error :=
  let r := s.d.writeFile n bs
  ({ s with d := r.1 }, r.2)

/-- Method `note`: persist the record in slot 0. -/
def note (E : Env) (s : Sys) : Sys × Option Error :=
  write s 0 (E.marshal s.v)

/-- A returned Go `error` as an outcome: nil is success. -/
def Result.ofError : Option Error → Result Unit
  | none => .ok ()
  | some e => .err e

/-- The record that `New` builds before looking at the directory; `Files` is not set,
so it is the nil map. -/
def blank (dir once : String) : versionFile :=
  { Version := "0.1.0", Dir := dir, Length := 10, Current := 0, Left := 0, Right := 0,
    Once := once, Files := none }

/-- Function `New`. `once` is the freshly generated instance identifier. -/
def New (E : Env) (dir once : String) (d : Disk) : Sys × Option Error :=
  let v := blank dir once
  let st := d.stat 0
  match st.2 with
  | some (.notExist _) => note E { v := v, d := st.1 }
  | _ =>
    let r := st.1.readFile 0
    match r.2 with
    | .error e => ({ v := v, d := r.1 }, some e)
    | .ok bs =>
      let u := E.unmarshal bs v
      ({ v := u.1, d := r.1 }, u.2)

/-- Method `Pick`. -/
def Pick (n : Int) (s : Sys) : Sys × Result Bytes :=
  if n < s.v.Left then (s, .err (.new "no such older version"))
  else if n > s.v.Right then (s, .err (.new "no such newer version"))
  else
    let r := read s n
    match r.2 with
    | .error e => (r.1, .err e)
    | .ok bs => (r.1, .ok bs)

/-- Method `SetLength`. -/
def SetLength (E : Env) (n : Int) (s : Sys) : Sys × Result Unit :=
  if n < 1 then (s, .err (.new "history length should at least 1"))
  else if n > 10000 then (s, .err (.new "history length is too long"))
  else
    let p := Pick s.v.Current s
    match p.2 with
    | .err e => (p.1, .err e)
    | .panic m => (p.1, .panic m)
    | .ok bs =>
      let w := write p.1 0 bs
      match w.2 with
      | some e => (w.1, .err e)
      | none =>
        let v1 := { w.1.v with Left := 0 }
        let v2 := { v1 with Right := 0 }
        let v3 := { v2 with Length := n }
        let r := note E { w.1 with v := v3 }
        (r.1, Result.ofError r.2)

/-- Method `Back`. -/
def Back (E : Env) (s : Sys) : Sys × Result Unit :=
  if s.v.Left = 0 then (s, .err (.new "no backward steps"))
  else
    let v1 := { s.v with Current := left s.v }
    let v2 := { v1 with Left := wrap (v1.Left + 1) }
    let v3 := { v2 with Right := wrap (v2.Right + 1) }
    let r := note E { s with v := v3 }
    (r.1, Result.ofError r.2)

/-- Method `Forward`. -/
def Forward (E : Env) (s : Sys) : Sys × Result Unit :=
  if s.v.Right = 0 then (s, .err (.new "no forward steps"))
  else
    let v1 := { s.v with Current := right s.v }
    let v2 := { v1 with Left := wrap (v1.Left - 1) }
    let v3 := { v2 with Right := wrap (v2.Right - 1) }
    let r := note E { s with v := v3 }
    (r.1, Result.ofError r.2)

/-- Method `Push`. `now` is the reading of the clock taken for the ledger entry.  The
assignment into `Files` panics when the map is nil; the counters have been updated and
the slot file written by then. -/
def Push (E : Env) (now : Time) (bs : Bytes) (s : Sys) : Sys × Result Unit :=
  let n := right s.v
  let w := write s n bs
  match w.2 with
  | some e => (w.1, .err e)
  | none =>
    let v1 := { w.1.v with Current := n }
    let v2 := { v1 with Right := 0 }
    let v3 := { v2 with
      Left := if wrap (v2.Left + v2.Length) > 1 then wrap (v2.Left - 1) else v2.Left }
    match v3.Files with
    | none => ({ w.1 with v := v3 }, .panic "assignment to entry in nil map")
    | some m =>
      let v4 := { v3 with
        Files := some ((toString n, { Sha1 := E.hash bs, Time := now }) :: m) }
      let r := note E { w.1 with v := v4 }
      (r.1, Result.ofError r.2)

/-- Method `PushJson`. -/
def PushJson (E : Env) (now : Time) (obj : E.Obj) (s : Sys) : Sys × Result Unit :=
  match E.validateStruct obj with
  | some e => (s, .err e)
  | none =>
    match E.marshalObj obj with
    | .error e => (s, .err e)
    | .ok bs => Push E now bs s

/-- Method `Reset`. -/
def Reset (E : Env) (n : Int) (s : Sys) : Sys × Result Bytes :=
  let p := Pick n s
  match p.2 with
  | .err e => (p.1, .err e)
  | .panic m => (p.1, .panic m)
  | .ok bs =>
    let v1 := { p.1.v with Current := wrap (p.1.v.Current + n) }
    let v2 := { v1 with Left := wrap (v1.Left - n) }
    let v3 := { v2 with Right := wrap (v2.Right - n) }
    let r := note E { p.1 with v := v3 }
    match r.2 with
    | some e => (r.1, .err e)
    | none => (r.1, .ok bs)

/-! ## Runs of the ring -/

/-- One call of a public method, with its arguments. -/
inductive Op (E : Env) where
  | push (now : Time) (bs : Bytes)
  | pushJson (now : Time) (obj : E.Obj)
  | back
  | forward
  | reset (n : Int)
  | pick (n : Int)
  | setLength (n : Int)

/-- Effect and outcome of one call. -/
def exec (E : Env) (op : Op E) (s : Sys) : Sys × Result Unit :=
  match op with
  | .push now bs => Push E now bs s
  | .pushJson now obj => PushJson E now obj s
  | .back => Back E s
  | .forward => Forward E s
  | .reset n => ((Reset E n s).1, (Reset E n s).2.void)
  | .pick n => ((Pick n s).1, (Pick n s).2.void)
  | .setLength n => SetLength E n s

/-- State after a sequence of calls, whatever their outcomes. -/
def run (E : Env) (ops : List (Op E)) (s : Sys) : Sys :=
  ops.foldl (fun st op => (exec E op st).1) s

/-- Every call of the sequence returns without error and without panic. -/
def allOk (E : Env) : List (Op E) → Sys → Bool
  | [], _ => true
  | op :: rest, s =>
    match (exec E op s).2 with
    | .ok _ => allOk E rest (exec E op s).1
    | _ => false

/-- The ring is empty: capacity 10, counters zero, ledger allocated and empty. -/
def isFresh (v : versionFile) : Prop :=
  v.Length = 10 ∧ v.Current = 0 ∧ v.Left = 0 ∧ v.Right = 0 ∧ v.Files = some []

instance (v : versionFile) : Decidable (isFresh v) := by
  unfold isFresh
  exact inferInstance

/-- The window predicate: capacity within its bounds, `Left` non-positive, `Right`
non-negative and the window no wider than the ring. -/
def Window (v : versionFile) : Prop :=
  1 ≤ v.Length ∧ v.Length ≤ 10000 ∧ v.Left ≤ 0 ∧ 0 ≤ v.Right ∧ v.Right - v.Left ≤ v.Length - 1

/-! ## A concrete environment, for evaluating the methods on explicit inputs -/

/-- Struct `Data` of the test file: field `A` is required, so it must be non-zero. -/
structure Data where
  A : Int
  B : String
  deriving DecidableEq

/-- Low byte of an integer. -/
def byteOf (x : Int) : Fin 256 := Fin.ofNat (x % 256).toNat

/-- Signed reading of a byte. -/
def intOf (b : Fin 256) : Int := if b.val < 128 then (b.val : Int) else (b.val : Int) - 256

/-- A small stand-in for the collaborators: a five-byte record code (the four counters
and whether the ledger is allocated), a checksum as fingerprint, and the required-field
check of `Data`. -/
def demoEnv : Env where
  Obj := Data
  hash := fun bs => toString (bs.foldl (fun a b => (31 * a + b.val) % 65521) 7)
  marshal := fun v =>
    [byteOf v.Length, byteOf v.Current, byteOf v.Left, byteOf v.Right,
      if v.Files.isSome then 1 else 0]
  unmarshal := fun bs v =>
    match bs with
    | [l, c, lf, r, t] =>
      ({ v with Length := intOf l, Current := intOf c, Left := intOf lf, Right := intOf r,
                Files := if t = 0 then none else some [] }, none)
    | _ => (v, some (.codec "unexpected end of JSON input"))
  validateStruct := fun o => if o.A = 0 then some (.validation "Data.A: required") else none
  marshalObj := fun o => .ok (byteOf o.A :: o.B.toList.map (fun c => Fin.ofNat c.toNat))

/-- A directory with no file and no injected fault. -/
def emptyDisk : Disk := { files := [], faults := [] }

/-- The ring that `New` returns for an empty directory. -/
def opened : Sys := (New demoEnv "data" "1.5" emptyDisk).1

/-- The empty ring with an allocated ledger, persisted in slot 0. -/
def fresh : Sys :=
  let v := { blank "data" "1.5" with Files := some [] }
  { v := v, d := { files := [(0, demoEnv.marshal v)], faults := [] } }

/-- Blobs used in the examples. -/
def b1 : Bytes := [1]

/-- Second example blob. -/
def b2 : Bytes := [2]

/-- Third example blob. -/
def b3 : Bytes := [3]

/-- The stand-in environment with an encoder that rejects an object whose `B` is empty. -/
def strictEnv : Env where
  Obj := Data
  hash := demoEnv.hash
  marshal := demoEnv.marshal
  unmarshal := demoEnv.unmarshal
  validateStruct := demoEnv.validateStruct
  marshalObj := fun o =>
    if o.B = "" then .error (.codec "json: unsupported value") else demoEnv.marshalObj o

/-- The predicate of the navigation window: a capacity of at least 1, `Left`
non-positive, `Right` non-negative and the window no wider than the ring. -/
def Span (v : versionFile) : Prop :=
  1 ≤ v.Length ∧ v.Left ≤ 0 ∧ 0 ≤ v.Right ∧ v.Right - v.Left ≤ v.Length - 1

instance (v : versionFile) : Decidable (Span v) := by
  unfold Span
  exact inferInstance

/-! ## Basic facts -/

/-- Arithmetic that stays within the Go `int` range does not wrap. -/
theorem wrap_id {x : Int} (h1 : -9223372036854775808 ≤ x) (h2 : x ≤ 9223372036854775807) :
    wrap x = x := by
  unfold wrap
  omega

/-- Method `write` does not touch the record. -/
@[simp] theorem write_v (s : Sys) (n : Int) (bs : Bytes) : (write s n bs).1.v = s.v := rfl

/-- Method `note` does not touch the record. -/
@[simp] theorem note_v (E : Env) (s : Sys) : (note E s).1.v = s.v := rfl

/-- Method `read` does not touch the record. -/
@[simp] theorem read_v (s : Sys) (n : Int) : (read s n).1.v = s.v := rfl

/-- Method `Pick` does not touch the record. -/
@[simp] theorem Pick_v (n : Int) (s : Sys) : (Pick n s).1.v = s.v := by
  unfold Pick
  split
  · rfl
  · split
    · rfl
    · simp only
      split <;> rfl

/-- `Push` keeps the window predicate, whatever its outcome. -/
theorem Push_window (E : Env) (now : Time) (bs : Bytes) (s : Sys) (h : Window s.v) :
    Window (Push E now bs s).1.v := by
  obtain ⟨h1, h2, h3, h4, h5⟩ := h
  have e1 : wrap (s.v.Left + s.v.Length) = s.v.Left + s.v.Length := wrap_id (by omega) (by omega)
  have e2 : wrap (s.v.Left - 1) = s.v.Left - 1 := wrap_id (by omega) (by omega)
  unfold Push
  simp only [write_v, e1, e2]
  split
  · exact ⟨h1, h2, h3, h4, h5⟩
  · split
    · simp only [Window]
      split <;> omega
    · simp only [Window, note_v]
      split <;> omega

/-- `Back` keeps the window predicate, whatever its outcome. -/
theorem Back_window (E : Env) (s : Sys) (h : Window s.v) : Window (Back E s).1.v := by
  obtain ⟨h1, h2, h3, h4, h5⟩ := h
  have e1 : wrap (s.v.Left + 1) = s.v.Left + 1 := wrap_id (by omega) (by omega)
  have e2 : wrap (s.v.Right + 1) = s.v.Right + 1 := wrap_id (by omega) (by omega)
  unfold Back
  split
  · exact ⟨h1, h2, h3, h4, h5⟩
  · simp only [Window, note_v, e1, e2]
    omega

/-- `Forward` keeps the window predicate, whatever its outcome. -/
theorem Forward_window (E : Env) (s : Sys) (h : Window s.v) : Window (Forward E s).1.v := by
  obtain ⟨h1, h2, h3, h4, h5⟩ := h
  have e1 : wrap (s.v.Left - 1) = s.v.Left - 1 := wrap_id (by omega) (by omega)
  have e2 : wrap (s.v.Right - 1) = s.v.Right - 1 := wrap_id (by omega) (by omega)
  unfold Forward
  split
  · exact ⟨h1, h2, h3, h4, h5⟩
  · simp only [Window, note_v, e1, e2]
    omega

/-- A successful `Pick n` has `Left ≤ n ≤ Right`. -/
theorem Pick_ok_bounds {n : Int} {s : Sys} {bs : Bytes} (h : (Pick n s).2 = .ok bs) :
    s.v.Left ≤ n ∧ n ≤ s.v.Right := by
  unfold Pick at h
  split at h
  · simp at h
  · split at h
    · simp at h
    · omega

/-- `Reset` keeps the window predicate, whatever its outcome. -/
theorem Reset_window (E : Env) (n : Int) (s : Sys) (h : Window s.v) :
    Window (Reset E n s).1.v := by
  obtain ⟨h1, h2, h3, h4, h5⟩ := h
  unfold Reset
  simp only
  split
  · simpa using ⟨h1, h2, h3, h4, h5⟩
  · simpa using ⟨h1, h2, h3, h4, h5⟩
  · rename_i bs hp
    obtain ⟨hl, hr⟩ := Pick_ok_bounds hp
    have e1 : wrap (s.v.Left - n) = s.v.Left - n := wrap_id (by omega) (by omega)
    have e2 : wrap (s.v.Right - n) = s.v.Right - n := wrap_id (by omega) (by omega)
    split <;> (simp only [Window, note_v, Pick_v, e1, e2]; omega)

/-- `SetLength` keeps the window predicate, whatever its outcome. -/
theorem SetLength_window (E : Env) (n : Int) (s : Sys) (h : Window s.v) :
    Window (SetLength E n s).1.v := by
  unfold SetLength
  split
  · exact h
  · split
    · exact h
    · simp only
      split
      · simpa using h
      · simpa using h
      · split
        · simpa using h
        · simp only [Window, note_v]
          omega

/-- `PushJson` keeps the window predicate, whatever its outcome. -/
theorem PushJson_window (E : Env) (now : Time) (obj : E.Obj) (s : Sys) (h : Window s.v) :
    Window (PushJson E now obj s).1.v := by
  unfold PushJson
  split
  · exact h
  · split
    · exact h
    · exact Push_window E now _ s h

/-- Every call keeps the window predicate. -/
theorem exec_window (E : Env) (op : Op E) (s : Sys) (h : Window s.v) :
    Window (exec E op s).1.v := by
  cases op with
  | push now bs => exact Push_window E now bs s h
  | pushJson now obj => exact PushJson_window E now obj s h
  | back => exact Back_window E s h
  | forward => exact Forward_window E s h
  | reset n => exact Reset_window E n s h
  | pick n => simpa [exec] using h
  | setLength n => exact SetLength_window E n s h

/-- Every sequence of calls keeps the window predicate. -/
theorem run_window (E : Env) (ops : List (Op E)) (s : Sys) (h : Window s.v) :
    Window (run E ops s).v := by
  induction ops generalizing s with
  | nil => exact h
  | cons op rest ih => exact ih _ (exec_window E op s h)

/-- The empty ring satisfies the window predicate. -/
theorem fresh_window {v : versionFile} (h : isFresh v) : Window v := by
  obtain ⟨h1, _, h3, h4, _⟩ := h
  simp only [Window, h1, h3, h4]
  omega

/-- A successful `Push` has written its slot file and found an allocated ledger. -/
theorem Push_ok_files {E : Env} {now : Time} {bs : Bytes} {s : Sys}
    (h : (Push E now bs s).2 = .ok ()) :
    (s.d.writeFile (right s.v) bs).2 = none ∧ ∃ m, s.v.Files = some m := by
  unfold Push at h
  simp only [write_v] at h
  split at h
  · simp at h
  · rename_i hw
    split at h
    · simp at h
    · rename_i m hm
      exact ⟨hw, m, hm⟩

/-- The record after a successful `Push`. -/
theorem Push_ok_v {E : Env} {now : Time} {bs : Bytes} {s : Sys}
    (h : (Push E now bs s).2 = .ok ()) :
    ∃ m, s.v.Files = some m ∧ (Push E now bs s).1.v =
      { s.v with
        Current := right s.v
        Right := 0
        Left := if wrap (s.v.Left + s.v.Length) > 1 then wrap (s.v.Left - 1) else s.v.Left
        Files := some ((toString (right s.v), { Sha1 := E.hash bs, Time := now }) :: m) } := by
  obtain ⟨hw, m, hm⟩ := Push_ok_files h
  refine ⟨m, hm, ?_⟩
  unfold Push
  simp only [write_v]
  have hw2 : (write s (right s.v) bs).2 = none := hw
  rw [hw2]
  simp only [hm, note_v]

/-- Method `right` below the capacity: the next slot. -/
theorem right_eq_of_lt {v : versionFile} (h0 : 0 ≤ v.Current) (h1 : v.Current < v.Length)
    (h2 : v.Length ≤ maxInt) : right v = v.Current + 1 := by
  simp only [maxInt] at h2
  have e : wrap (v.Current + 1) = v.Current + 1 := wrap_id (by omega) (by omega)
  unfold right
  simp only [e]
  split <;> omega

/-- Method `right` at the capacity: slot 1. -/
theorem right_eq_of_eq {v : versionFile} (h0 : 0 ≤ v.Current) (h1 : v.Current = v.Length)
    (h2 : v.Length < maxInt) : right v = 1 := by
  simp only [maxInt] at h2
  have e : wrap (v.Current + 1) = v.Current + 1 := wrap_id (by omega) (by omega)
  unfold right
  simp only [e]
  split <;> omega

/-- Consuming a fault flag leaves the files as they are. -/
theorem tick_files (d : Disk) : d.tick.2.files = d.files := by
  unfold Disk.tick
  split <;> rfl

/-- A write that succeeds binds its slot in front of the older bindings. -/
theorem writeFile_ok_files {d : Disk} {n : Int} {bs : Bytes}
    (h : (d.writeFile n bs).2 = none) : (d.writeFile n bs).1.files = (n, bs) :: d.files := by
  unfold Disk.writeFile at h ⊢
  simp only at h ⊢
  split at h
  · simp at h
  · rename_i ht
    simp only [ht, tick_files]
    simp

/-- Only the nil error is a success. -/
theorem ofError_ok {r : Option Error} (h : Result.ofError r = .ok ()) : r = none := by
  cases r with
  | none => rfl
  | some e => simp [Result.ofError] at h

/-- The directory after a successful `Push`: the blob in its slot, then the record in
slot 0. -/
theorem Push_ok_disk {E : Env} {now : Time} {bs : Bytes} {s : Sys}
    (h : (Push E now bs s).2 = .ok ()) :
    (Push E now bs s).1.d.files
      = (0, E.marshal (Push E now bs s).1.v) :: (right s.v, bs) :: s.d.files := by
  obtain ⟨hw, m, hm⟩ := Push_ok_files h
  unfold Push at h ⊢
  simp only [write_v] at h ⊢
  have hw2 : (write s (right s.v) bs).2 = none := hw
  rw [hw2] at h ⊢
  simp only [hm] at h ⊢
  have hn := ofError_ok h
  unfold note write at hn ⊢
  simp only at hn ⊢
  rw [writeFile_ok_files hn, writeFile_ok_files hw]

/-- Method `left` on a content slot: the slot before, or the capacity at slot 1. -/
theorem left_eq {v : versionFile} (ht : v.typed) (h1 : 1 ≤ v.Current) :
    left v = if v.Current = 1 then v.Length else v.Current - 1 := by
  obtain ⟨_, ⟨_, hc⟩, _, _⟩ := ht
  simp only [maxInt] at hc
  have e : wrap (v.Current - 1) = v.Current - 1 := wrap_id (by omega) (by omega)
  unfold left
  simp only [e]
  split <;> split <;> omega

/-- A write can only fail with the injected fault of its slot. -/
theorem writeFile_err {d : Disk} {n : Int} {bs : Bytes} {e : Error}
    (h : (d.writeFile n bs).2 = some e) : e = .fault n := by
  unfold Disk.writeFile at h
  simp only at h
  split at h
  · simpa using h.symm
  · simp at h

/-- With no fault flag pending, consuming one changes nothing. -/
theorem tick_nil {d : Disk} (h : d.faults = []) : d.tick = (false, d) := by
  unfold Disk.tick
  rw [h]

/-- With no fault flag pending a write succeeds. -/
theorem writeFile_nil {d : Disk} (h : d.faults = []) (n : Int) (bs : Bytes) :
    d.writeFile n bs = ({ d with files := (n, bs) :: d.files }, none) := by
  unfold Disk.writeFile
  simp [tick_nil h]

/-- With no fault flag pending a read returns the content of the file, if it exists. -/
theorem readFile_nil {d : Disk} (h : d.faults = []) (n : Int) :
    d.readFile n = (d, match d.content n with
      | none => .error (.notExist n)
      | some bs => .ok bs) := by
  unfold Disk.readFile
  simp only [tick_nil h]
  cases d.content n <;> simp

/-- A read leaves the files as they are. -/
theorem readFile_files (d : Disk) (n : Int) : (d.readFile n).1.files = d.files := by
  unfold Disk.readFile
  simp only
  split
  · exact tick_files d
  · split <;> exact tick_files d

/-- Method `Pick` leaves the files as they are. -/
theorem Pick_files (n : Int) (s : Sys) : (Pick n s).1.d.files = s.d.files := by
  unfold Pick
  split
  · rfl
  · split
    · rfl
    · simp only
      split <;> exact readFile_files s.d n

/-- Outcome of `Pick` within its bounds: the outcome of reading the file of slot `n`. -/
theorem Pick_in_bounds {n : Int} {s : Sys} (h1 : s.v.Left ≤ n) (h2 : n ≤ s.v.Right) :
    (Pick n s).2 = (match (s.d.readFile n).2 with
      | .ok bs => .ok bs
      | .error e => .err e) := by
  have h3 : ¬ n < s.v.Left := by omega
  have h4 : ¬ n > s.v.Right := by omega
  unfold Pick
  rw [if_neg h3, if_neg h4]
  simp only [read]
  split <;> simp_all

/-- Outcome of `Pick` within its bounds when no fault is pending and the file exists. -/
theorem Pick_nil {n : Int} {s : Sys} {bs : Bytes} (h1 : s.v.Left ≤ n) (h2 : n ≤ s.v.Right)
    (hf : s.d.faults = []) (hc : s.d.content n = some bs) : Pick n s = (s, .ok bs) := by
  have h3 : ¬ n < s.v.Left := by omega
  have h4 : ¬ n > s.v.Right := by omega
  unfold Pick
  rw [if_neg h3, if_neg h4]
  simp only [read, readFile_nil hf, hc]

/-- The record and the directory after a successful `SetLength`: two writes to slot 0,
the picked bytes first and the encoded record last. -/
theorem SetLength_ok {E : Env} {n : Int} {s : Sys} (h : (SetLength E n s).2 = .ok ()) :
    1 ≤ n ∧ n ≤ 10000 ∧
    (SetLength E n s).1.v = { s.v with Left := 0, Right := 0, Length := n } ∧
    ∃ bs, (Pick s.v.Current s).2 = .ok bs ∧
      (SetLength E n s).1.d.files
        = (0, E.marshal { s.v with Left := 0, Right := 0, Length := n }) :: (0, bs)
            :: s.d.files := by
  unfold SetLength at h ⊢
  split at h
  · simp at h
  · split at h
    · simp at h
    · rename_i h1 h2
      rw [if_neg h1, if_neg h2]
      simp only at h ⊢
      split at h
      · simp at h
      · simp at h
      · rename_i bs hp
        simp only [hp] at h ⊢
        split at h
        · simp at h
        · rename_i hw
          simp only [hw, write_v, Pick_v, note_v] at h ⊢
          have hn := ofError_ok h
          refine ⟨by omega, by omega, trivial, bs, rfl, ?_⟩
          unfold note write at hn ⊢
          simp only [Pick_v] at hn ⊢
          unfold write at hw
          simp only at hw
          rw [writeFile_ok_files hn, writeFile_ok_files hw, Pick_files]

/-- Method `right` never gives slot 0 from a non-negative `Current`. -/
theorem right_ne_zero {v : versionFile} (h0 : 0 ≤ v.Current) (h1 : v.Current ≤ maxInt) :
    right v ≠ 0 := by
  simp only [maxInt] at h1
  unfold right wrap
  simp only
  split <;> omega

/-- `Push` with an allocated ledger and no fault pending: it succeeds, writes the blob
and then the record, and records the fingerprint under the slot number. -/
theorem Push_nil (E : Env) (now : Time) (bs : Bytes) {s : Sys}
    {m : List (String × fileInfo)} (hf : s.d.faults = []) (hm : s.v.Files = some m) :
    (Push E now bs s).2 = .ok () ∧
    (Push E now bs s).1.d.faults = [] ∧
    (Push E now bs s).1.d.files
      = (0, E.marshal (Push E now bs s).1.v) :: (right s.v, bs) :: s.d.files ∧
    (Push E now bs s).1.v.Current = right s.v ∧
    (Push E now bs s).1.v.Length = s.v.Length ∧
    (Push E now bs s).1.v.Files
      = some ((toString (right s.v), { Sha1 := E.hash bs, Time := now }) :: m) := by
  have hok : (Push E now bs s).2 = .ok () := by
    have hf2 : ∀ fs : List (Int × Bytes),
        ({ files := fs, faults := s.d.faults } : Disk).faults = [] := fun _ => hf
    unfold Push note write
    simp only [writeFile_nil hf, hm, writeFile_nil (hf2 _)]
    rfl
  obtain ⟨m1, hm1, hv⟩ := Push_ok_v hok
  rw [hm] at hm1
  cases hm1
  refine ⟨hok, ?_, Push_ok_disk hok, by rw [hv], by rw [hv], by rw [hv]⟩
  have hf2 : ∀ fs : List (Int × Bytes),
      ({ files := fs, faults := s.d.faults } : Disk).faults = [] := fun _ => hf
  unfold Push note write
  simp only [writeFile_nil hf, hm, writeFile_nil (hf2 _)]
  exact hf

/-- Outcome of a read: decided by the fault flag it meets and by the files. -/
theorem readFile_snd (d : Disk) (n : Int) :
    (d.readFile n).2 = if d.tick.1 then .error (.fault n) else
      (match d.files.lookup n with
        | none => .error (.notExist n)
        | some bs => .ok bs) := by
  unfold Disk.readFile Disk.content
  simp only [tick_files]
  split
  · rfl
  · split <;> simp_all

/-- Disk after a read: the fault flag is consumed. -/
theorem readFile_fst (d : Disk) (n : Int) : (d.readFile n).1 = d.tick.2 := by
  unfold Disk.readFile
  simp only
  split
  · rfl
  · split <;> rfl

/-- `Push` keeps the navigation window and a capacity that is a Go int. -/
theorem Push_span (E : Env) (now : Time) (bs : Bytes) (s : Sys) (h : Span s.v)
    (ht : s.v.Length ≤ maxInt) :
    Span (Push E now bs s).1.v ∧ (Push E now bs s).1.v.Length ≤ maxInt := by
  obtain ⟨h1, h3, h4, h5⟩ := h
  have ht2 := ht
  simp only [maxInt] at ht2
  have e1 : wrap (s.v.Left + s.v.Length) = s.v.Left + s.v.Length := wrap_id (by omega) (by omega)
  have e2 : wrap (s.v.Left - 1) = s.v.Left - 1 := wrap_id (by omega) (by omega)
  unfold Push
  simp only [write_v, e1, e2]
  split
  · exact ⟨⟨h1, h3, h4, h5⟩, ht⟩
  · split
    · refine ⟨?_, ht⟩
      simp only [Span]
      split <;> omega
    · refine ⟨?_, ht⟩
      simp only [Span, note_v]
      split <;> omega

/-- `Back` keeps the navigation window and a capacity that is a Go int. -/
theorem Back_span (E : Env) (s : Sys) (h : Span s.v) (ht : s.v.Length ≤ maxInt) :
    Span (Back E s).1.v ∧ (Back E s).1.v.Length ≤ maxInt := by
  obtain ⟨h1, h3, h4, h5⟩ := h
  have ht2 := ht
  simp only [maxInt] at ht2
  have e1 : wrap (s.v.Left + 1) = s.v.Left + 1 := wrap_id (by omega) (by omega)
  unfold Back
  split
  · exact ⟨⟨h1, h3, h4, h5⟩, ht⟩
  · have e2 : wrap (s.v.Right + 1) = s.v.Right + 1 := wrap_id (by omega) (by omega)
    refine ⟨?_, ht⟩
    simp only [Span, note_v, e1, e2]
    omega

/-- `Forward` keeps the navigation window and a capacity that is a Go int. -/
theorem Forward_span (E : Env) (s : Sys) (h : Span s.v) (ht : s.v.Length ≤ maxInt) :
    Span (Forward E s).1.v ∧ (Forward E s).1.v.Length ≤ maxInt := by
  obtain ⟨h1, h3, h4, h5⟩ := h
  have ht2 := ht
  simp only [maxInt] at ht2
  have e1 : wrap (s.v.Left - 1) = s.v.Left - 1 := wrap_id (by omega) (by omega)
  have e2 : wrap (s.v.Right - 1) = s.v.Right - 1 := wrap_id (by omega) (by omega)
  unfold Forward
  split
  · exact ⟨⟨h1, h3, h4, h5⟩, ht⟩
  · refine ⟨?_, ht⟩
    simp only [Span, note_v, e1, e2]
    omega

/-- `Reset` keeps the navigation window and a capacity that is a Go int. -/
theorem Reset_span (E : Env) (n : Int) (s : Sys) (h : Span s.v) (ht : s.v.Length ≤ maxInt) :
    Span (Reset E n s).1.v ∧ (Reset E n s).1.v.Length ≤ maxInt := by
  obtain ⟨h1, h3, h4, h5⟩ := h
  have ht2 := ht
  simp only [maxInt] at ht2
  unfold Reset
  simp only
  split
  · simpa using ⟨⟨h1, h3, h4, h5⟩, ht⟩
  · simpa using ⟨⟨h1, h3, h4, h5⟩, ht⟩
  · rename_i bs hp
    obtain ⟨hl, hr⟩ := Pick_ok_bounds hp
    have e1 : wrap (s.v.Left - n) = s.v.Left - n := wrap_id (by omega) (by omega)
    have e2 : wrap (s.v.Right - n) = s.v.Right - n := wrap_id (by omega) (by omega)
    split <;> (simp only [Span, note_v, Pick_v, e1, e2]; exact ⟨by omega, ht⟩)

/-- `SetLength` keeps the navigation window and a capacity that is a Go int. -/
theorem SetLength_span (E : Env) (n : Int) (s : Sys) (h : Span s.v)
    (ht : s.v.Length ≤ maxInt) :
    Span (SetLength E n s).1.v ∧ (SetLength E n s).1.v.Length ≤ maxInt := by
  unfold SetLength
  split
  · exact ⟨h, ht⟩
  · split
    · exact ⟨h, ht⟩
    · simp only
      split
      · simpa using ⟨h, ht⟩
      · simpa using ⟨h, ht⟩
      · split
        · simpa using ⟨h, ht⟩
        · simp only [Span, note_v, maxInt]
          omega

/-- Every call keeps the navigation window and a capacity that is a Go int. -/
theorem exec_span (E : Env) (op : Op E) (s : Sys) (h : Span s.v) (ht : s.v.Length ≤ maxInt) :
    Span (exec E op s).1.v ∧ (exec E op s).1.v.Length ≤ maxInt := by
  cases op with
  | push now bs => exact Push_span E now bs s h ht
  | pushJson now obj =>
    simp only [exec]
    unfold PushJson
    split
    · exact ⟨h, ht⟩
    · split
      · exact ⟨h, ht⟩
      · exact Push_span E now _ s h ht
  | back => exact Back_span E s h ht
  | forward => exact Forward_span E s h ht
  | reset n => exact Reset_span E n s h ht
  | pick n => simpa [exec] using ⟨h, ht⟩
  | setLength n => exact SetLength_span E n s h ht

/-- Every sequence of calls keeps the navigation window. -/
theorem run_span (E : Env) (ops : List (Op E)) (s : Sys) (h : Span s.v)
    (ht : s.v.Length ≤ maxInt) : Span (run E ops s).v := by
  induction ops generalizing s with
  | nil => exact h
  | cons op rest ih => exact ih _ (exec_span E op s h ht).1 (exec_span E op s h ht).2

/-- `Back` with no fault pending and `Left ≠ 0`: it succeeds and leaves no fault
pending. -/
theorem Back_nil {E : Env} {s : Sys} (hf : s.d.faults = []) (hl : s.v.Left ≠ 0) :
    (Back E s).2 = .ok () ∧ (Back E s).1.d.faults = [] ∧
    (Back E s).1.v = { s.v with
      Current := left s.v, Left := wrap (s.v.Left + 1), Right := wrap (s.v.Right + 1) } := by
  unfold Back note write
  rw [if_neg hl]
  simp only [writeFile_nil hf]
  exact ⟨rfl, hf, trivial⟩

/-- `Forward` with no fault pending and `Right ≠ 0`: it succeeds and leaves no fault
pending. -/
theorem Forward_nil {E : Env} {s : Sys} (hf : s.d.faults = []) (hr : s.v.Right ≠ 0) :
    (Forward E s).2 = .ok () ∧ (Forward E s).1.d.faults = [] ∧
    (Forward E s).1.v = { s.v with
      Current := right s.v, Left := wrap (s.v.Left - 1), Right := wrap (s.v.Right - 1) } := by
  unfold Forward note write
  rw [if_neg hr]
  simp only [writeFile_nil hf]
  exact ⟨rfl, hf, trivial⟩

/-- A successful `Back` had `Left ≠ 0`. -/
theorem Back_ok_left {E : Env} {s : Sys} (h : (Back E s).2 = .ok ()) : s.v.Left ≠ 0 := by
  intro h0
  unfold Back at h
  rw [if_pos h0] at h
  simp at h

/-- A successful `Forward` had `Right ≠ 0`. -/
theorem Forward_ok_right {E : Env} {s : Sys} (h : (Forward E s).2 = .ok ()) :
    s.v.Right ≠ 0 := by
  intro h0
  unfold Forward at h
  rw [if_pos h0] at h
  simp at h

/-! ## The claims -/

/-- C1 (amended): from an empty ring with an allocated ledger, every state reached by any
sequence of calls, whatever their outcomes, has `-(capacity-1) ≤ left ≤ 0`,
`0 ≤ right ≤ capacity-1` and `right - left ≤ capacity-1`. -/
theorem C1_window_of_reachable (E : Env) (s0 : Sys) (ops : List (Op E)) (h0 : isFresh s0.v) :
    -((run E ops s0).v.Length - 1) ≤ (run E ops s0).v.Left ∧ (run E ops s0).v.Left ≤ 0 ∧
    0 ≤ (run E ops s0).v.Right ∧ (run E ops s0).v.Right ≤ (run E ops s0).v.Length - 1 ∧
    (run E ops s0).v.Right - (run E ops s0).v.Left ≤ (run E ops s0).v.Length - 1 := by
  obtain ⟨_, _, h3, h4, h5⟩ := run_window E ops s0 (fresh_window h0)
  omega

/-- Witness for C1 (amended): the bounds after two pushes and one step back. -/
theorem C1_window_of_reachable_witness :
    isFresh fresh.v ∧
    -((run demoEnv [.push 1 b1, .push 2 b2, .back] fresh).v.Length - 1)
      ≤ (run demoEnv [.push 1 b1, .push 2 b2, .back] fresh).v.Left ∧
    (run demoEnv [.push 1 b1, .push 2 b2, .back] fresh).v.Left ≤ 0 ∧
    0 ≤ (run demoEnv [.push 1 b1, .push 2 b2, .back] fresh).v.Right ∧
    (run demoEnv [.push 1 b1, .push 2 b2, .back] fresh).v.Right
      ≤ (run demoEnv [.push 1 b1, .push 2 b2, .back] fresh).v.Length - 1 ∧
    (run demoEnv [.push 1 b1, .push 2 b2, .back] fresh).v.Right
      - (run demoEnv [.push 1 b1, .push 2 b2, .back] fresh).v.Left
      ≤ (run demoEnv [.push 1 b1, .push 2 b2, .back] fresh).v.Length - 1 :=
  ⟨by decide, C1_window_of_reachable demoEnv fresh [.push 1 b1, .push 2 b2, .back] (by decide)⟩

/-- C1 (as stated) fails: one successful `Push` on the empty ring leaves `left = -1`. -/
theorem C1_left_negative_after_push :
    isFresh fresh.v ∧ allOk demoEnv [.push 1 b1] fresh = true ∧
    (run demoEnv [.push 1 b1] fresh).v.Left = -1 ∧
    ¬ (0 ≤ (run demoEnv [.push 1 b1] fresh).v.Left ∧
       (run demoEnv [.push 1 b1] fresh).v.Left ≤ (run demoEnv [.push 1 b1] fresh).v.Length - 1 ∧
       0 ≤ (run demoEnv [.push 1 b1] fresh).v.Right ∧
       (run demoEnv [.push 1 b1] fresh).v.Right ≤ (run demoEnv [.push 1 b1] fresh).v.Length - 1 ∧
       (run demoEnv [.push 1 b1] fresh).v.Left + (run demoEnv [.push 1 b1] fresh).v.Right
         ≤ (run demoEnv [.push 1 b1] fresh).v.Length - 1) := by
  decide

/-- C2 (amended): with `capacity ≥ 1` and `-(capacity-1) ≤ left ≤ 0`, a successful `Push`
leaves `-left` equal to `min (-left + 1) (capacity - 1)`. -/
theorem C2_push_grows_back_window (E : Env) (now : Time) (bs : Bytes) (s : Sys)
    (ht : s.v.typed) (hcap : 1 ≤ s.v.Length)
    (hlo : -(s.v.Length - 1) ≤ s.v.Left) (hhi : s.v.Left ≤ 0)
    (hok : (Push E now bs s).2 = .ok ()) :
    -(Push E now bs s).1.v.Left = min (-s.v.Left + 1) (s.v.Length - 1) := by
  obtain ⟨m, _, hv⟩ := Push_ok_v hok
  obtain ⟨⟨_, hL⟩, _, _, _⟩ := ht
  simp only [minInt, maxInt] at hL
  have e1 : wrap (s.v.Left + s.v.Length) = s.v.Left + s.v.Length := wrap_id (by omega) (by omega)
  have e2 : wrap (s.v.Left - 1) = s.v.Left - 1 := wrap_id (by omega) (by omega)
  rw [hv]
  simp only [e1, e2]
  split <;> omega

/-- Witness for C2 (amended): the first push on the empty ring. -/
theorem C2_push_grows_back_window_witness :
    fresh.v.typed ∧ 1 ≤ fresh.v.Length ∧ -(fresh.v.Length - 1) ≤ fresh.v.Left ∧
    fresh.v.Left ≤ 0 ∧ (Push demoEnv 1 b1 fresh).2 = .ok () ∧
    -(Push demoEnv 1 b1 fresh).1.v.Left = min (-fresh.v.Left + 1) (fresh.v.Length - 1) :=
  ⟨by decide, by decide, by decide, by decide, by decide,
    C2_push_grows_back_window demoEnv 1 b1 fresh (by decide) (by decide) (by decide)
      (by decide) (by decide)⟩

/-- C2 (as stated) fails: on the empty ring (`left = 0`, capacity 10) a successful `Push`
leaves `left = -1`, not `min (0 + 1) (10 - 1) = 1`. -/
theorem C2_push_left_decreases :
    1 ≤ fresh.v.Length ∧ 0 ≤ fresh.v.Left ∧ fresh.v.Left ≤ fresh.v.Length - 1 ∧
    (Push demoEnv 1 b1 fresh).2 = .ok () ∧
    (Push demoEnv 1 b1 fresh).1.v.Left = -1 ∧
    (Push demoEnv 1 b1 fresh).1.v.Left ≠ min (fresh.v.Left + 1) (fresh.v.Length - 1) := by
  decide

/-- C3 (code evaluated): after `Push b1`, `Push b2` on the empty ring `right` is 0 and the
first `Back` succeeds, but the second `Back` succeeds too and makes slot 10, which has
no file, the current slot; only the third `Back` fails with "no backward steps". -/
theorem C3_back_succeeds_twice :
    isFresh fresh.v ∧
    allOk demoEnv [.push 1 b1, .push 2 b2] fresh = true ∧
    (run demoEnv [.push 1 b1, .push 2 b2] fresh).v.Right = 0 ∧
    (Back demoEnv (run demoEnv [.push 1 b1, .push 2 b2] fresh)).2 = .ok () ∧
    (Back demoEnv (run demoEnv [.push 1 b1, .push 2 b2, .back] fresh)).2 = .ok () ∧
    (run demoEnv [.push 1 b1, .push 2 b2, .back, .back] fresh).v.Current = 10 ∧
    (run demoEnv [.push 1 b1, .push 2 b2, .back, .back] fresh).d.content 10 = none ∧
    (Back demoEnv (run demoEnv [.push 1 b1, .push 2 b2, .back, .back] fresh)).2
      = .err (.new "no backward steps") := by
  decide

/-- C4: with `1 ≤ capacity` and `0 ≤ current ≤ capacity`, a successful `Push bs` makes
`(current mod capacity) + 1` the current slot, leaves `bs` in the file of that slot, sets
`right` to 0, and the new current slot lies in `[1, capacity]`; at `current = capacity`
it is slot 1.  The capacity is below the largest Go int, as every capacity of the data
model (at most 10000) is. -/
theorem C4_push_slot (E : Env) (now : Time) (bs : Bytes) (s : Sys)
    (hcap : 1 ≤ s.v.Length) (hmax : s.v.Length < maxInt)
    (hc0 : 0 ≤ s.v.Current) (hc1 : s.v.Current ≤ s.v.Length)
    (hok : (Push E now bs s).2 = .ok ()) :
    (Push E now bs s).1.v.Current = s.v.Current % s.v.Length + 1 ∧
    (Push E now bs s).1.d.content (s.v.Current % s.v.Length + 1) = some bs ∧
    (Push E now bs s).1.v.Right = 0 ∧
    1 ≤ (Push E now bs s).1.v.Current ∧ (Push E now bs s).1.v.Current ≤ s.v.Length ∧
    (Push E now bs s).1.v.Current ≠ 0 ∧
    (s.v.Current = s.v.Length → (Push E now bs s).1.v.Current = 1) := by
  obtain ⟨m, _, hv⟩ := Push_ok_v hok
  have hd := Push_ok_disk hok
  have hr : right s.v = s.v.Current % s.v.Length + 1 ∧ 1 ≤ right s.v ∧ right s.v ≤ s.v.Length
      ∧ (s.v.Current = s.v.Length → right s.v = 1) := by
    rcases lt_or_eq_of_le hc1 with hlt | heq
    · rw [right_eq_of_lt hc0 hlt (le_of_lt hmax), Int.emod_eq_of_lt hc0 hlt]
      omega
    · rw [right_eq_of_eq hc0 heq hmax, heq, Int.emod_self]
      omega
  obtain ⟨hr1, hr2, hr3, hr4⟩ := hr
  have hcur : (Push E now bs s).1.v.Current = right s.v := by rw [hv]
  have hright : (Push E now bs s).1.v.Right = 0 := by rw [hv]
  have hcont : (Push E now bs s).1.d.content (right s.v) = some bs := by
    unfold Disk.content
    rw [hd]
    have hne : (right s.v == (0 : Int)) = false := by
      rw [beq_eq_false_iff_ne]
      omega
    simp [List.lookup, hne]
  rw [hcur, hright, ← hr1]
  exact ⟨rfl, hcont, rfl, hr2, hr3, by omega, hr4⟩

/-- Witness for C4: a push at `current = capacity = 2` goes to slot 1. -/
theorem C4_push_slot_witness :
    (1 : Int) ≤ 2 ∧ (2 : Int) < maxInt ∧ (0 : Int) ≤ 2 ∧ (2 : Int) ≤ 2 ∧
    (Push demoEnv 7 b3 { fresh with v := { fresh.v with Length := 2, Current := 2 } }).2 = .ok () ∧
    (Push demoEnv 7 b3 { fresh with v := { fresh.v with Length := 2, Current := 2 } }).1.v.Current
      = 1 ∧
    (Push demoEnv 7 b3 { fresh with v := { fresh.v with Length := 2, Current := 2 } }).1.d.content 1
      = some b3 :=
  have h := C4_push_slot demoEnv 7 b3 { fresh with v := { fresh.v with Length := 2, Current := 2 } }
    (by decide) (by decide) (by decide) (by decide) (by decide)
  ⟨by decide, by decide, by decide, by decide, by decide, h.1, h.2.1⟩

/-- C5 (code evaluated): the ring that `New` returns for an empty directory has a nil
ledger, for every environment, and the first `Push` on it panics at the ledger
assignment, after it has written the slot file and moved the counters; no ledger entry
for slot 1 exists afterwards.  The ring re-opened from the persisted record behaves the
same. -/
theorem C5_push_on_new_ring_panics :
    (∀ (E : Env) (dir once : String) (now : Time) (bs : Bytes),
      (New E dir once emptyDisk).2 = none ∧
      (New E dir once emptyDisk).1.v.Files = none ∧
      (Push E now bs (New E dir once emptyDisk).1).2
        = .panic "assignment to entry in nil map" ∧
      (Push E now bs (New E dir once emptyDisk).1).1.v.entry "1" = none ∧
      (Push E now bs (New E dir once emptyDisk).1).1.v.Current = 1 ∧
      (Push E now bs (New E dir once emptyDisk).1).1.d.content 1 = some bs) ∧
    (New demoEnv "data" "2.7" opened.d).2 = none ∧
    (New demoEnv "data" "2.7" opened.d).1.v.Files = none ∧
    (Push demoEnv 1 b1 (New demoEnv "data" "2.7" opened.d).1).2
      = .panic "assignment to entry in nil map" := by
  refine ⟨fun E dir once now bs => ?_, by decide, by decide, by decide⟩
  exact ⟨rfl, rfl, rfl, rfl, rfl, rfl⟩

/-- C6 (code evaluated): after one successful `Push` on the empty ring the file of the
current slot holds the blob, yet `SetLength 5` fails with "no such newer version" and
leaves the capacity at 10. -/
theorem C6_setLength_fails_after_push :
    isFresh fresh.v ∧
    allOk demoEnv [.push 1 b1] fresh = true ∧
    (run demoEnv [.push 1 b1] fresh).v.Current = 1 ∧
    (run demoEnv [.push 1 b1] fresh).d.content 1 = some b1 ∧
    (SetLength demoEnv 5 (run demoEnv [.push 1 b1] fresh)).2
      = .err (.new "no such newer version") ∧
    (SetLength demoEnv 5 (run demoEnv [.push 1 b1] fresh)).1.v.Length = 10 := by
  decide

/-- C7 (code evaluated): on the ring that `New` returns for an empty directory, `Pick 0`
and `Reset 0` succeed and return the bytes of the slot-0 metadata file. -/
theorem C7_pick_zero_returns_metadata :
    (New demoEnv "data" "1.5" emptyDisk).2 = none ∧
    opened.d.content 0 = some (demoEnv.marshal opened.v) ∧
    (Pick 0 opened).2 = .ok (demoEnv.marshal opened.v) ∧
    (Reset demoEnv 0 opened).2 = .ok (demoEnv.marshal opened.v) ∧
    ¬ ((1 : Int) ≤ 0 ∧ (0 : Int) ≤ opened.v.Length) := by
  decide

/-- C8 (code evaluated): two runs of successful calls from the empty ring end with
`current` above the capacity: `SetLength 1` at `current = 2`, and `Reset 1` at
`current = capacity = 2`, which gives `current = 3`. -/
theorem C8_current_exceeds_capacity :
    isFresh fresh.v ∧
    allOk demoEnv [.push 1 b1, .push 2 b2, .push 3 b3, .push 4 b1, .back, .back, .setLength 1]
      fresh = true ∧
    (run demoEnv [.push 1 b1, .push 2 b2, .push 3 b3, .push 4 b1, .back, .back, .setLength 1]
      fresh).v.Current = 2 ∧
    (run demoEnv [.push 1 b1, .push 2 b2, .push 3 b3, .push 4 b1, .back, .back, .setLength 1]
      fresh).v.Length = 1 ∧
    allOk demoEnv [.setLength 2, .push 1 b1, .push 2 b2, .push 3 b3, .back, .reset 1]
      fresh = true ∧
    (run demoEnv [.setLength 2, .push 1 b1, .push 2 b2, .push 3 b3, .back, .reset 1]
      fresh).v.Current = 3 ∧
    (run demoEnv [.setLength 2, .push 1 b1, .push 2 b2, .push 3 b3, .back, .reset 1]
      fresh).v.Length = 2 := by
  decide

/-- C9: a call whose precondition fails returns its error and leaves the ring and the
directory exactly as they were: `SetLength n` with `n < 1` or `n > 10000`, `Back` with
`left = 0`, `Forward` with `right = 0`, and `Reset n` with `n < left` or `n > right`. -/
theorem C9_precondition_failure_keeps_state (E : Env) (s : Sys) (n : Int) :
    (n < 1 → SetLength E n s = (s, .err (.new "history length should at least 1"))) ∧
    (n > 10000 → SetLength E n s = (s, .err (.new "history length is too long"))) ∧
    (s.v.Left = 0 → Back E s = (s, .err (.new "no backward steps"))) ∧
    (s.v.Right = 0 → Forward E s = (s, .err (.new "no forward steps"))) ∧
    (n < s.v.Left → Reset E n s = (s, .err (.new "no such older version"))) ∧
    (s.v.Left ≤ n → n > s.v.Right → Reset E n s = (s, .err (.new "no such newer version"))) := by
  refine ⟨fun h => ?_, fun h => ?_, fun h => ?_, fun h => ?_, fun h => ?_, fun h1 h2 => ?_⟩
  · unfold SetLength
    rw [if_pos h]
  · have h1 : ¬ n < 1 := by omega
    unfold SetLength
    rw [if_neg h1, if_pos h]
  · unfold Back
    rw [if_pos h]
  · unfold Forward
    rw [if_pos h]
  · have hp : Pick n s = (s, .err (.new "no such older version")) := by
      unfold Pick
      rw [if_pos h]
    unfold Reset
    simp only [hp]
  · have h3 : ¬ n < s.v.Left := by omega
    have hp : Pick n s = (s, .err (.new "no such newer version")) := by
      unfold Pick
      rw [if_neg h3, if_pos h2]
    unfold Reset
    simp only [hp]

/-- Witness for C9: the six failing calls on the empty ring and on the ring after one
push. -/
theorem C9_precondition_failure_keeps_state_witness :
    SetLength demoEnv 0 fresh = (fresh, .err (.new "history length should at least 1")) ∧
    SetLength demoEnv 10001 fresh = (fresh, .err (.new "history length is too long")) ∧
    Back demoEnv fresh = (fresh, .err (.new "no backward steps")) ∧
    Forward demoEnv fresh = (fresh, .err (.new "no forward steps")) ∧
    Reset demoEnv (-1) fresh = (fresh, .err (.new "no such older version")) ∧
    Reset demoEnv 10001 fresh = (fresh, .err (.new "no such newer version")) :=
  ⟨(C9_precondition_failure_keeps_state demoEnv fresh 0).1 (by decide),
   (C9_precondition_failure_keeps_state demoEnv fresh 10001).2.1 (by decide),
   (C9_precondition_failure_keeps_state demoEnv fresh 0).2.2.1 (by decide),
   (C9_precondition_failure_keeps_state demoEnv fresh 0).2.2.2.1 (by decide),
   (C9_precondition_failure_keeps_state demoEnv fresh (-1)).2.2.2.2.1 (by decide),
   (C9_precondition_failure_keeps_state demoEnv fresh 10001).2.2.2.2.2 (by decide) (by decide)⟩

/-- C10: `Back` with `left = 0`, as on the ring that `New` returns for an empty
directory, fails with "no backward steps".  With `capacity ≥ 1`,
`1 ≤ current ≤ capacity` and `left ≠ 0`, a successful `Back` sets `current` to
`current - 1`, or to the capacity when `current = 1`, increases `left` by 1 and `right`
by 1, and leaves the capacity and the ledger as they were.  The counters are Go ints
and `left`, `right` are below the largest one. -/
theorem C10_back (E : Env) (s : Sys) :
    (∀ dir once : String, (New E dir once emptyDisk).1.v.Left = 0 ∧
      (Back E (New E dir once emptyDisk).1).2 = .err (.new "no backward steps")) ∧
    (s.v.Left = 0 → (Back E s).2 = .err (.new "no backward steps")) ∧
    (s.v.typed → 1 ≤ s.v.Length → 1 ≤ s.v.Current → s.v.Current ≤ s.v.Length →
      s.v.Left ≠ 0 → s.v.Left < maxInt → s.v.Right < maxInt → (Back E s).2 = .ok () →
      (Back E s).1.v.Current = (if s.v.Current = 1 then s.v.Length else s.v.Current - 1) ∧
      (Back E s).1.v.Left = s.v.Left + 1 ∧
      (Back E s).1.v.Right = s.v.Right + 1 ∧
      (Back E s).1.v.Length = s.v.Length ∧
      (Back E s).1.v.Files = s.v.Files) := by
  refine ⟨fun dir once => ⟨rfl, rfl⟩, fun h => ?_, fun ht _ hc1 _ hl hlm hrm _ => ?_⟩
  · unfold Back
    rw [if_pos h]
  · have hcur := left_eq ht hc1
    obtain ⟨_, _, ⟨hl0, _⟩, ⟨hr0, _⟩⟩ := ht
    simp only [maxInt, minInt] at hl0 hr0 hlm hrm
    have e1 : wrap (s.v.Left + 1) = s.v.Left + 1 := wrap_id (by omega) (by omega)
    have e2 : wrap (s.v.Right + 1) = s.v.Right + 1 := wrap_id (by omega) (by omega)
    unfold Back
    rw [if_neg hl]
    simp only [note_v, e1, e2, hcur, and_self]

/-- Witness for C10: one step back after the first push on the empty ring. -/
theorem C10_back_witness :
    (Back demoEnv fresh).2 = .err (.new "no backward steps") ∧
    (Back demoEnv (Push demoEnv 1 b1 fresh).1).1.v.Current = 10 ∧
    (Back demoEnv (Push demoEnv 1 b1 fresh).1).1.v.Left = 0 ∧
    (Back demoEnv (Push demoEnv 1 b1 fresh).1).1.v.Right = 1 :=
  have h := (C10_back demoEnv (Push demoEnv 1 b1 fresh).1).2.2 (by decide) (by decide)
    (by decide) (by decide) (by decide) (by decide) (by decide) (by decide)
  ⟨(C10_back demoEnv fresh).2.1 (by decide), h.1, h.2.1, h.2.2.1⟩

/-- C11: with `capacity ≥ 1`, `0 ≤ current ≤ capacity` and `right ≥ 0`, `Forward` fails
with "no forward steps" exactly when `right` is not positive; otherwise it sets `current`
to `current + 1`, or to 1 when `current = capacity`, decreases `left` by 1 and `right` by
1, leaves the capacity and the ledger as they were, and returns without error when no
file operation fails.  The counters are Go ints, the capacity is below the largest one
and `left` above the smallest one. -/
theorem C11_forward (E : Env) (s : Sys) (ht : s.v.typed) (hcap : 1 ≤ s.v.Length)
    (hmax : s.v.Length < maxInt) (hc0 : 0 ≤ s.v.Current) (hc1 : s.v.Current ≤ s.v.Length)
    (hr : 0 ≤ s.v.Right) (hl : minInt < s.v.Left) :
    ((Forward E s).2 = .err (.new "no forward steps") ↔ ¬ 0 < s.v.Right) ∧
    (0 < s.v.Right →
      (Forward E s).1.v.Current = (if s.v.Current = s.v.Length then 1 else s.v.Current + 1) ∧
      (Forward E s).1.v.Left = s.v.Left - 1 ∧
      (Forward E s).1.v.Right = s.v.Right - 1 ∧
      (Forward E s).1.v.Length = s.v.Length ∧
      (Forward E s).1.v.Files = s.v.Files ∧
      (s.d.faults = [] → (Forward E s).2 = .ok ())) := by
  obtain ⟨_, _, ⟨_, hl1⟩, ⟨_, hr1⟩⟩ := ht
  simp only [maxInt, minInt] at hl hl1 hr1 hmax
  have e1 : wrap (s.v.Left - 1) = s.v.Left - 1 := wrap_id (by omega) (by omega)
  have e2 : wrap (s.v.Right - 1) = s.v.Right - 1 := wrap_id (by omega) (by omega)
  have e3 : right s.v = if s.v.Current = s.v.Length then 1 else s.v.Current + 1 := by
    split
    · rename_i h
      exact right_eq_of_eq hc0 h (by simpa only [maxInt] using hmax)
    · rename_i h
      exact right_eq_of_lt hc0 (by omega) (by simp only [maxInt]; omega)
  constructor
  · constructor
    · intro h hpos
      have hne : ¬ s.v.Right = 0 := by omega
      unfold Forward at h
      rw [if_neg hne] at h
      simp only at h
      cases hn : (note E { s with v := { s.v with Current := right s.v, Left := wrap (s.v.Left - 1), Right := wrap (s.v.Right - 1) } }).2 with
      | none => rw [hn] at h; simp [Result.ofError] at h
      | some e =>
        rw [hn] at h
        have := writeFile_err hn
        subst this
        simp [Result.ofError] at h
    · intro h
      have h0 : s.v.Right = 0 := by omega
      unfold Forward
      rw [if_pos h0]
  · intro hpos
    have hne : ¬ s.v.Right = 0 := by omega
    unfold Forward
    rw [if_neg hne]
    simp only [note_v, e1, e2, e3, true_and]
    intro hf
    unfold note write
    simp only [writeFile_nil hf]
    rfl

/-- Witness for C11: `Forward` after two pushes and one step back, and on the empty
ring. -/
theorem C11_forward_witness :
    (Forward demoEnv fresh).2 = .err (.new "no forward steps") ∧
    (Forward demoEnv (run demoEnv [.push 1 b1, .push 2 b2, .back] fresh)).1.v.Current = 2 ∧
    (Forward demoEnv (run demoEnv [.push 1 b1, .push 2 b2, .back] fresh)).1.v.Left = -2 ∧
    (Forward demoEnv (run demoEnv [.push 1 b1, .push 2 b2, .back] fresh)).1.v.Right = 0 ∧
    (Forward demoEnv (run demoEnv [.push 1 b1, .push 2 b2, .back] fresh)).2 = .ok () :=
  have h0 := C11_forward demoEnv fresh (by decide) (by decide) (by decide) (by decide)
    (by decide) (by decide) (by decide)
  have h := (C11_forward demoEnv (run demoEnv [.push 1 b1, .push 2 b2, .back] fresh)
    (by decide) (by decide) (by decide) (by decide) (by decide) (by decide) (by decide)).2
    (by decide)
  ⟨h0.1.2 (by decide), h.1, h.2.1, h.2.2.1, h.2.2.2.2.2 (by decide)⟩

/-- C12: `Pick n` fails with "no such older version" if `n < left`, otherwise with
"no such newer version" if `n > right`, and otherwise returns the outcome of reading the
file of slot `n` itself; its outcome does not depend on `current` or on the capacity. -/
theorem C12_pick (s : Sys) (n : Int) :
    (n < s.v.Left → Pick n s = (s, .err (.new "no such older version"))) ∧
    (s.v.Left ≤ n → s.v.Right < n → Pick n s = (s, .err (.new "no such newer version"))) ∧
    (s.v.Left ≤ n → n ≤ s.v.Right →
      (Pick n s).2 = (match (s.d.readFile n).2 with
        | .ok bs => .ok bs
        | .error e => .err e) ∧
      (s.d.faults = [] → ∀ bs, s.d.content n = some bs → (Pick n s).2 = .ok bs) ∧
      (s.d.faults = [] → s.d.content n = none → (Pick n s).2 = .err (.notExist n))) ∧
    (∀ c l : Int, (Pick n { s with v := { s.v with Current := c, Length := l } }).2
      = (Pick n s).2) := by
  refine ⟨fun h => ?_, fun h1 h2 => ?_, fun h1 h2 => ⟨Pick_in_bounds h1 h2, ?_, ?_⟩,
    fun c l => ?_⟩
  · unfold Pick
    rw [if_pos h]
  · have h3 : ¬ n < s.v.Left := by omega
    unfold Pick
    rw [if_neg h3, if_pos h2]
  · intro hf bs hc
    rw [Pick_in_bounds h1 h2, readFile_nil hf, hc]
  · intro hf hc
    rw [Pick_in_bounds h1 h2, readFile_nil hf, hc]
  · unfold Pick
    simp only [read]
    split
    · rfl
    · split
      · rfl
      · cases (s.d.readFile n).2 <;> rfl

/-- Witness for C12: on the ring after two pushes and one step back (`current = 1`,
`left = -1`, `right = 1`), `Pick 1` returns the file of slot 1, `Pick (-2)` and `Pick 2`
fail on the bounds. -/
theorem C12_pick_witness :
    Pick (-2) (run demoEnv [.push 1 b1, .push 2 b2, .back] fresh)
      = (run demoEnv [.push 1 b1, .push 2 b2, .back] fresh,
          .err (.new "no such older version")) ∧
    Pick 2 (run demoEnv [.push 1 b1, .push 2 b2, .back] fresh)
      = (run demoEnv [.push 1 b1, .push 2 b2, .back] fresh,
          .err (.new "no such newer version")) ∧
    (Pick 1 (run demoEnv [.push 1 b1, .push 2 b2, .back] fresh)).2 = .ok b1 :=
  ⟨(C12_pick (run demoEnv [.push 1 b1, .push 2 b2, .back] fresh) (-2)).1 (by decide),
   (C12_pick (run demoEnv [.push 1 b1, .push 2 b2, .back] fresh) 2).2.1 (by decide)
     (by decide),
   ((C12_pick (run demoEnv [.push 1 b1, .push 2 b2, .back] fresh) 1).2.2.1 (by decide)
     (by decide)).2.1 (by decide) b1 (by decide)⟩

/-- C13: with `left ≤ n ≤ right`, the file of slot `n` present and no file operation
failing, `Reset n` returns the bytes that `Pick n` returns and leaves
`current + n`, `left - n` and `right - n` (plain sums, no wrap modulo the capacity) with
the capacity and the ledger as they were.  The three results are Go ints. -/
theorem C13_reset (E : Env) (s : Sys) (n : Int) (bs : Bytes)
    (hl : s.v.Left ≤ n) (hr : n ≤ s.v.Right)
    (hf : s.d.faults = []) (hc : s.d.content n = some bs)
    (h1 : isInt (s.v.Current + n)) (h2 : isInt (s.v.Left - n)) (h3 : isInt (s.v.Right - n)) :
    (Pick n s).2 = .ok bs ∧ (Reset E n s).2 = .ok bs ∧
    (Reset E n s).1.v.Current = s.v.Current + n ∧
    (Reset E n s).1.v.Left = s.v.Left - n ∧
    (Reset E n s).1.v.Right = s.v.Right - n ∧
    (Reset E n s).1.v.Length = s.v.Length ∧
    (Reset E n s).1.v.Files = s.v.Files := by
  have hp := Pick_nil hl hr hf hc
  simp only [isInt, minInt, maxInt] at h1 h2 h3
  have e1 : wrap (s.v.Current + n) = s.v.Current + n := wrap_id h1.1 h1.2
  have e2 : wrap (s.v.Left - n) = s.v.Left - n := wrap_id h2.1 h2.2
  have e3 : wrap (s.v.Right - n) = s.v.Right - n := wrap_id h3.1 h3.2
  unfold Reset
  simp only [hp, e1, e2, e3]
  unfold note write
  simp only [writeFile_nil hf, and_self]

/-- Witness for C13: `Reset 1` after two pushes and one step back returns the file of
slot 1 and moves `current` from 1 to 2. -/
theorem C13_reset_witness :
    (Reset demoEnv 1 (run demoEnv [.push 1 b1, .push 2 b2, .back] fresh)).2 = .ok b1 ∧
    (Reset demoEnv 1 (run demoEnv [.push 1 b1, .push 2 b2, .back] fresh)).1.v.Current = 2 ∧
    (Reset demoEnv 1 (run demoEnv [.push 1 b1, .push 2 b2, .back] fresh)).1.v.Left = -2 ∧
    (Reset demoEnv 1 (run demoEnv [.push 1 b1, .push 2 b2, .back] fresh)).1.v.Right = 0 :=
  have h := C13_reset demoEnv (run demoEnv [.push 1 b1, .push 2 b2, .back] fresh) 1 b1
    (by decide) (by decide) (by decide) (by decide) (by decide) (by decide) (by decide)
  ⟨h.2.1, h.2.2.1, h.2.2.2.1, h.2.2.2.2.1⟩

/-- C14: a successful `SetLength n` leaves `left = 0`, `right = 0` and capacity `n` and
nothing else of the record changed (`current` included); the file of every slot other
than 0 is as it was, and the file of slot 0 holds the encoded record of the new state. -/
theorem C14_setLength (E : Env) (s : Sys) (n : Int) (hok : (SetLength E n s).2 = .ok ()) :
    (SetLength E n s).1.v.Left = 0 ∧ (SetLength E n s).1.v.Right = 0 ∧
    (SetLength E n s).1.v.Length = n ∧ (SetLength E n s).1.v.Current = s.v.Current ∧
    (SetLength E n s).1.v = { s.v with Left := 0, Right := 0, Length := n } ∧
    (∀ k : Int, k ≠ 0 → (SetLength E n s).1.d.content k = s.d.content k) ∧
    (SetLength E n s).1.d.content 0 = some (E.marshal (SetLength E n s).1.v) := by
  obtain ⟨_, _, hv, bs, _, hd⟩ := SetLength_ok hok
  refine ⟨by rw [hv], by rw [hv], by rw [hv], by rw [hv], hv, fun k hk => ?_, ?_⟩
  · have hne : (k == (0 : Int)) = false := by
      rw [beq_eq_false_iff_ne]
      exact hk
    unfold Disk.content
    rw [hd]
    simp [List.lookup, hne]
  · unfold Disk.content
    rw [hd, hv]
    simp [List.lookup]

/-- Witness for C14: `SetLength 5` after two pushes and one step back (`current = 1`,
`right = 1`). -/
theorem C14_setLength_witness :
    (SetLength demoEnv 5 (run demoEnv [.push 1 b1, .push 2 b2, .back] fresh)).2 = .ok () ∧
    (SetLength demoEnv 5 (run demoEnv [.push 1 b1, .push 2 b2, .back] fresh)).1.v.Length = 5 ∧
    (SetLength demoEnv 5 (run demoEnv [.push 1 b1, .push 2 b2, .back] fresh)).1.v.Current = 1 ∧
    (SetLength demoEnv 5 (run demoEnv [.push 1 b1, .push 2 b2, .back] fresh)).1.d.content 2
      = some b2 ∧
    (SetLength demoEnv 5 (run demoEnv [.push 1 b1, .push 2 b2, .back] fresh)).1.d.content 0
      = some (demoEnv.marshal
          (SetLength demoEnv 5 (run demoEnv [.push 1 b1, .push 2 b2, .back] fresh)).1.v) :=
  have h := C14_setLength demoEnv (run demoEnv [.push 1 b1, .push 2 b2, .back] fresh) 5
    (by decide)
  ⟨by decide, h.2.2.1, h.2.2.2.1, h.2.2.2.2.2.1 2 (by decide), h.2.2.2.2.2.2⟩

/-- C15: after a successful `Push bs` at a non-negative `current`, the file of the new
current slot holds `bs` and the ledger entry keyed by that slot number carries
`hash bs`.  On a ring with capacity 2 at `current = 0`, three pushes use slots 1, 2, 1:
afterwards the file of slot 1 holds the third blob and the ledger entry of slot 1 its
fingerprint, while slot 2 still holds the second blob. -/
theorem C15_push_records (E : Env) :
    (∀ (now : Time) (bs : Bytes) (s : Sys), 0 ≤ s.v.Current → s.v.Current ≤ maxInt →
      (Push E now bs s).2 = .ok () →
      (Push E now bs s).1.d.content (Push E now bs s).1.v.Current = some bs ∧
      (Push E now bs s).1.v.entry (toString (Push E now bs s).1.v.Current)
        = some { Sha1 := E.hash bs, Time := now }) ∧
    (∀ (s : Sys) (m : List (String × fileInfo)) (t1 t2 t3 : Time) (x1 x2 x3 : Bytes),
      s.v.Length = 2 → s.v.Current = 0 → s.v.Files = some m → s.d.faults = [] →
      (Push E t1 x1 s).2 = .ok () ∧
      (Push E t1 x1 s).1.v.Current = 1 ∧
      (Push E t2 x2 (Push E t1 x1 s).1).2 = .ok () ∧
      (Push E t2 x2 (Push E t1 x1 s).1).1.v.Current = 2 ∧
      (Push E t3 x3 (Push E t2 x2 (Push E t1 x1 s).1).1).2 = .ok () ∧
      (Push E t3 x3 (Push E t2 x2 (Push E t1 x1 s).1).1).1.v.Current = 1 ∧
      (Push E t3 x3 (Push E t2 x2 (Push E t1 x1 s).1).1).1.d.content 1 = some x3 ∧
      (Push E t3 x3 (Push E t2 x2 (Push E t1 x1 s).1).1).1.v.entry "1"
        = some { Sha1 := E.hash x3, Time := t3 } ∧
      (Push E t3 x3 (Push E t2 x2 (Push E t1 x1 s).1).1).1.d.content 2 = some x2) := by
  constructor
  · intro now bs s h0 h1 hok
    obtain ⟨m, _, hv⟩ := Push_ok_v hok
    have hd := Push_ok_disk hok
    have hcur : (Push E now bs s).1.v.Current = right s.v := by rw [hv]
    have hne : (right s.v == (0 : Int)) = false := by
      rw [beq_eq_false_iff_ne]
      exact right_ne_zero h0 h1
    constructor
    · unfold Disk.content
      rw [hd, hcur]
      simp [List.lookup, hne]
    · rw [hcur]
      unfold versionFile.entry
      rw [hv]
      simp [List.lookup]
  · intro s m t1 t2 t3 x1 x2 x3 hlen hcur hm hf
    have r1 : right s.v = 1 :=
      (right_eq_of_lt (by omega) (by omega) (by rw [hlen]; decide)).trans (by rw [hcur]; rfl)
    obtain ⟨ok1, f1, d1, c1, l1, m1⟩ := Push_nil E t1 x1 hf hm
    rw [r1] at d1 c1 m1
    have r2 : right (Push E t1 x1 s).1.v = 2 :=
      (right_eq_of_lt (by omega) (by omega) (by rw [l1, hlen]; decide)).trans
        (by rw [c1]; rfl)
    obtain ⟨ok2, f2, d2, c2, l2, m2⟩ := Push_nil E t2 x2 f1 m1
    rw [r2] at d2 c2 m2
    have r3 : right (Push E t2 x2 (Push E t1 x1 s).1).1.v = 1 :=
      right_eq_of_eq (by omega) (by omega) (by rw [l2, l1, hlen]; decide)
    obtain ⟨ok3, f3, d3, c3, l3, m3⟩ := Push_nil E t3 x3 f2 m2
    rw [r3] at d3 c3 m3
    refine ⟨ok1, c1, ok2, c2, ok3, c3, ?_, ?_, ?_⟩
    · unfold Disk.content
      rw [d3]
      simp [List.lookup]
    · unfold versionFile.entry
      rw [m3]
      have e1 : toString (1 : Int) = "1" := by decide
      rw [e1]
      simp [List.lookup]
    · unfold Disk.content
      rw [d3, d2]
      simp [List.lookup]

/-- Witness for C15: three pushes on the empty ring with its capacity set to 2. -/
theorem C15_push_records_witness :
    (Push demoEnv 3 b3 (run demoEnv [.setLength 2, .push 1 b1, .push 2 b2] fresh)).1.d.content 1
      = some b3 ∧
    (Push demoEnv 3 b3 (run demoEnv [.setLength 2, .push 1 b1, .push 2 b2] fresh)).1.v.entry
      (toString (Push demoEnv 3 b3
        (run demoEnv [.setLength 2, .push 1 b1, .push 2 b2] fresh)).1.v.Current)
      = some { Sha1 := demoEnv.hash b3, Time := 3 } ∧
    (Push demoEnv 3 b3 (Push demoEnv 2 b2 (Push demoEnv 1 b1
      (SetLength demoEnv 2 fresh).1).1).1).1.d.content 2 = some b2 :=
  have h := (C15_push_records demoEnv).1 3 b3
    (run demoEnv [.setLength 2, .push 1 b1, .push 2 b2] fresh) (by decide) (by decide)
    (by decide)
  have g := (C15_push_records demoEnv).2 (SetLength demoEnv 2 fresh).1 [] 1 2 3 b1 b2 b3
    (by decide) (by decide) (by decide) (by decide)
  ⟨h.1, h.2, g.2.2.2.2.2.2.2.2⟩

/-- C16 (code evaluated): `New` on an empty directory followed by `Push b1` panics, so the
record in slot 0 is still the initial one; the ring re-opened from it has `current = 0`
and `left = 0` where the first ring has 1 and -1, its ledger is nil, `Pick 0` on it
returns the metadata and `Pick 1` fails.  With an allocated ledger the push succeeds
and the counters come back, yet `Pick` of the current slot fails with
"no such newer version" and `Pick 0` returns the metadata, not the blob. -/
theorem C16_round_trip_breaks :
    (New demoEnv "data" "1.5" emptyDisk).2 = none ∧
    (Push demoEnv 1 b1 opened).2 = .panic "assignment to entry in nil map" ∧
    (Push demoEnv 1 b1 opened).1.v.Current = 1 ∧
    (Push demoEnv 1 b1 opened).1.v.Left = -1 ∧
    (Push demoEnv 1 b1 opened).1.d.content 0 = some (demoEnv.marshal (blank "data" "1.5")) ∧
    (New demoEnv "data" "2.7" (Push demoEnv 1 b1 opened).1.d).2 = none ∧
    (New demoEnv "data" "2.7" (Push demoEnv 1 b1 opened).1.d).1.v.Current = 0 ∧
    (New demoEnv "data" "2.7" (Push demoEnv 1 b1 opened).1.d).1.v.Left = 0 ∧
    (New demoEnv "data" "2.7" (Push demoEnv 1 b1 opened).1.d).1.v.Files = none ∧
    (Pick 0 (New demoEnv "data" "2.7" (Push demoEnv 1 b1 opened).1.d).1).2
      = .ok (demoEnv.marshal (blank "data" "1.5")) ∧
    (Pick 1 (New demoEnv "data" "2.7" (Push demoEnv 1 b1 opened).1.d).1).2
      = .err (.new "no such newer version") ∧
    (Push demoEnv 1 b1 fresh).2 = .ok () ∧
    (New demoEnv "data" "2.7" (Push demoEnv 1 b1 fresh).1.d).2 = none ∧
    (New demoEnv "data" "2.7" (Push demoEnv 1 b1 fresh).1.d).1.v.Current = 1 ∧
    (New demoEnv "data" "2.7" (Push demoEnv 1 b1 fresh).1.d).1.v.Left = -1 ∧
    (New demoEnv "data" "2.7" (Push demoEnv 1 b1 fresh).1.d).1.v.Right = 0 ∧
    (Pick 1 (New demoEnv "data" "2.7" (Push demoEnv 1 b1 fresh).1.d).1).2
      = .err (.new "no such newer version") ∧
    (Pick 0 (New demoEnv "data" "2.7" (Push demoEnv 1 b1 fresh).1.d).1).2
      = .ok (demoEnv.marshal (Push demoEnv 1 b1 fresh).1.v) ∧
    (Pick 0 (New demoEnv "data" "2.7" (Push demoEnv 1 b1 fresh).1.d).1).2 ≠ .ok b1 := by
  decide

/-- C17: when `validate.Struct` rejects the object, `PushJson` returns that error and
leaves the ring and the directory exactly as they were; the same holds when the encoder
fails; when both succeed, `PushJson` is `Push` on the encoded bytes, in effect and in
outcome. -/
theorem C17_pushJson (E : Env) (now : Time) (obj : E.Obj) (s : Sys) :
    (∀ e, E.validateStruct obj = some e → PushJson E now obj s = (s, .err e)) ∧
    (∀ e, E.validateStruct obj = none → E.marshalObj obj = .error e →
      PushJson E now obj s = (s, .err e)) ∧
    (∀ bs, E.validateStruct obj = none → E.marshalObj obj = .ok bs →
      PushJson E now obj s = Push E now bs s) := by
  refine ⟨fun e h => ?_, fun e h1 h2 => ?_, fun bs h1 h2 => ?_⟩
  · unfold PushJson
    rw [h]
  · unfold PushJson
    rw [h1]
    simp only [h2]
  · unfold PushJson
    rw [h1]
    simp only [h2]

/-- Witness for C17: an object without its required field, an object the encoder
rejects, and the object of the test file. -/
theorem C17_pushJson_witness :
    PushJson demoEnv 1 { A := 0, B := "x" } fresh
      = (fresh, .err (.validation "Data.A: required")) ∧
    PushJson strictEnv 1 { A := 1, B := "" } fresh
      = (fresh, .err (.codec "json: unsupported value")) ∧
    PushJson demoEnv 1 { A := 123, B := "" } fresh = Push demoEnv 1 [123] fresh :=
  ⟨(C17_pushJson demoEnv 1 { A := 0, B := "x" } fresh).1 _ (by decide),
   (C17_pushJson strictEnv 1 { A := 1, B := "" } fresh).2.1 _ (by decide) rfl,
   (C17_pushJson demoEnv 1 { A := 123, B := "" } fresh).2.2 _ (by decide) rfl⟩

/-- C18: `Pick n` changes neither the record nor any file; with no fault pending, or
more generally when both reads meet the same fault flag, a second `Pick n` right after
the first returns the same bytes or the same error. -/
theorem C18_pick_read_only (s : Sys) (n : Int) :
    (Pick n s).1.v = s.v ∧ (Pick n s).1.d.files = s.d.files ∧
    (∀ k : Int, (Pick n s).1.d.content k = s.d.content k) ∧
    (s.d.faults = [] → (Pick n s).1 = s ∧ (Pick n (Pick n s).1).2 = (Pick n s).2) ∧
    (s.d.tick.1 = s.d.tick.2.tick.1 → (Pick n (Pick n s).1).2 = (Pick n s).2) := by
  have hgen : s.d.tick.1 = s.d.tick.2.tick.1 → (Pick n (Pick n s).1).2 = (Pick n s).2 := by
    intro ht
    by_cases h1 : n < s.v.Left
    · have e : Pick n s = (s, .err (.new "no such older version")) := by
        unfold Pick
        rw [if_pos h1]
      rw [e]
      simp only [e]
    · by_cases h2 : n > s.v.Right
      · have e : Pick n s = (s, .err (.new "no such newer version")) := by
          unfold Pick
          rw [if_neg h1, if_pos h2]
        rw [e]
        simp only [e]
      · have hp : (Pick n s).1.d = s.d.tick.2 := by
          unfold Pick
          rw [if_neg h1, if_neg h2]
          simp only [read]
          split <;> exact readFile_fst s.d n
        have hl : (Pick n s).1.v.Left ≤ n := by rw [Pick_v]; omega
        have hr : n ≤ (Pick n s).1.v.Right := by rw [Pick_v]; omega
        rw [Pick_in_bounds hl hr, Pick_in_bounds (s := s) (by omega) (by omega),
          readFile_snd, readFile_snd, hp, tick_files, ← ht]
  refine ⟨Pick_v n s, Pick_files n s, fun k => ?_, fun hf => ⟨?_, ?_⟩, hgen⟩
  · unfold Disk.content
    rw [Pick_files]
  · unfold Pick
    simp only [read, readFile_nil hf]
    split
    · rfl
    · split
      · rfl
      · cases s.d.content n <;> rfl
  · apply hgen
    simp only [tick_nil hf]

/-- Witness for C18: `Pick 1` twice after two pushes and one step back. -/
theorem C18_pick_read_only_witness :
    (Pick 1 (run demoEnv [.push 1 b1, .push 2 b2, .back] fresh)).1
      = run demoEnv [.push 1 b1, .push 2 b2, .back] fresh ∧
    (Pick 1 (Pick 1 (run demoEnv [.push 1 b1, .push 2 b2, .back] fresh)).1).2
      = (Pick 1 (run demoEnv [.push 1 b1, .push 2 b2, .back] fresh)).2 ∧
    (Pick 1 (run demoEnv [.push 1 b1, .push 2 b2, .back] fresh)).2 = .ok b1 :=
  have h := (C18_pick_read_only (run demoEnv [.push 1 b1, .push 2 b2, .back] fresh)
    1).2.2.2.1 (by decide)
  ⟨h.1, h.2, by decide⟩

/-- C19: the predicate `capacity ≥ 1`, `left ≤ 0 ≤ right`, `right - left ≤ capacity - 1`
holds again after `Push`, `Back`, `Forward`, `Reset n`, `SetLength n`, `Pick n` and
`PushJson`, whatever the outcome of the call and whichever file operations fail, and
after every sequence of calls, so `left` never becomes positive and `right` never
negative; it holds in the ring that `New` builds and in every empty ring.  The capacity
is a Go int. -/
theorem C19_span_preserved (E : Env) (s : Sys) (h : Span s.v) (ht : s.v.Length ≤ maxInt) :
    (∀ (now : Time) (bs : Bytes), Span (Push E now bs s).1.v) ∧
    Span (Back E s).1.v ∧ Span (Forward E s).1.v ∧
    (∀ n : Int, Span (Reset E n s).1.v) ∧
    (∀ n : Int, Span (SetLength E n s).1.v) ∧
    (∀ n : Int, Span (Pick n s).1.v) ∧
    (∀ (now : Time) (obj : E.Obj), Span (PushJson E now obj s).1.v) ∧
    (∀ ops : List (Op E), Span (run E ops s).v ∧
      (run E ops s).v.Left ≤ 0 ∧ 0 ≤ (run E ops s).v.Right) ∧
    (∀ dir once : String, Span (blank dir once)) ∧
    (∀ v : versionFile, isFresh v → Span v) := by
  refine ⟨fun now bs => (Push_span E now bs s h ht).1, (Back_span E s h ht).1,
    (Forward_span E s h ht).1, fun n => (Reset_span E n s h ht).1,
    fun n => (SetLength_span E n s h ht).1, fun n => ?_,
    fun now obj => (exec_span E (.pushJson now obj) s h ht).1, fun ops => ?_,
    fun dir once => ?_, fun v hv => ?_⟩
  · rw [Pick_v]
    exact h
  · have hs := run_span E ops s h ht
    exact ⟨hs, hs.2.1, hs.2.2.1⟩
  · simp only [Span, blank]
    omega
  · obtain ⟨h1, _, h3, h4, _⟩ := hv
    simp only [Span, h1, h3, h4]
    omega

/-- Witness for C19: the empty ring, and a run with a failing `Reset` and a `Push` whose
metadata write fails. -/
theorem C19_span_preserved_witness :
    Span fresh.v ∧ fresh.v.Length ≤ maxInt ∧
    Span (Push demoEnv 1 b1 fresh).1.v ∧
    Span (Back demoEnv (Push demoEnv 1 b1 fresh).1).1.v ∧
    Span (run demoEnv [.push 1 b1, .reset (-1), .back, .forward, .setLength 3]
      { fresh with d := { fresh.d with faults := [false, true] } }).v :=
  ⟨by decide, by decide,
   (C19_span_preserved demoEnv fresh (by decide) (by decide)).1 1 b1,
   (C19_span_preserved demoEnv (Push demoEnv 1 b1 fresh).1 (by decide) (by decide)).2.1,
   ((C19_span_preserved demoEnv { fresh with d := { fresh.d with faults := [false, true] } }
     (by decide) (by decide)).2.2.2.2.2.2.2.1 _).1⟩

/-- C20: with `capacity ≥ 1`, `1 ≤ current ≤ capacity` and no file operation failing, a
successful `Back` with `right ≠ -1` is undone by the next `Forward`, which succeeds and
restores the whole record; a successful `Forward` with `left ≠ 1` is undone by the next
`Back` in the same way.  At `current = 0`, `Back` then `Forward` gives `current = 1`.
The counters are Go ints and the capacity is below the largest one. -/
theorem C20_back_forward_inverse (E : Env) (s : Sys) (ht : s.v.typed) (hcap : 1 ≤ s.v.Length)
    (hmax : s.v.Length < maxInt) (hf : s.d.faults = []) :
    (1 ≤ s.v.Current → s.v.Current ≤ s.v.Length → (Back E s).2 = .ok () → s.v.Right ≠ -1 →
      (Forward E (Back E s).1).2 = .ok () ∧ (Forward E (Back E s).1).1.v = s.v) ∧
    (1 ≤ s.v.Current → s.v.Current ≤ s.v.Length → (Forward E s).2 = .ok () → s.v.Left ≠ 1 →
      (Back E (Forward E s).1).2 = .ok () ∧ (Back E (Forward E s).1).1.v = s.v) ∧
    (s.v.Current = 0 → (Back E s).2 = .ok () → s.v.Right ≠ -1 →
      (Forward E (Back E s).1).2 = .ok () ∧ (Forward E (Back E s).1).1.v.Current = 1 ∧
      (Forward E (Back E s).1).1.v.Current ≠ s.v.Current) := by
  obtain ⟨⟨hn0, hn1⟩, ⟨hc0, hc1⟩, ⟨hl0, hl1⟩, ⟨hr0, hr1⟩⟩ := ht
  simp only [maxInt, minInt] at hn0 hn1 hc0 hc1 hl0 hl1 hr0 hr1 hmax
  refine ⟨fun h1 h2 hok hr => ?_, fun h1 h2 hok hl => ?_, fun h0 hok hr => ?_⟩
  · obtain ⟨_, bf, bv⟩ := Back_nil (E := E) hf (Back_ok_left hok)
    have hr2 : (Back E s).1.v.Right ≠ 0 := by
      rw [bv]
      simp only [wrap]
      omega
    obtain ⟨fok, _, fv⟩ := Forward_nil (E := E) bf hr2
    have ec : right (Back E s).1.v = s.v.Current := by
      rw [bv]
      simp only [right, left, wrap]
      split <;> split <;> omega
    have el : wrap ((Back E s).1.v.Left - 1) = s.v.Left := by
      rw [bv]
      simp only [wrap]
      omega
    have er : wrap ((Back E s).1.v.Right - 1) = s.v.Right := by
      rw [bv]
      simp only [wrap]
      omega
    refine ⟨fok, ?_⟩
    rw [fv, ec, el, er, bv]
  · obtain ⟨_, ff, fv⟩ := Forward_nil (E := E) hf (Forward_ok_right hok)
    have hl2 : (Forward E s).1.v.Left ≠ 0 := by
      rw [fv]
      simp only [wrap]
      omega
    obtain ⟨bok, _, bv⟩ := Back_nil (E := E) ff hl2
    have ec : left (Forward E s).1.v = s.v.Current := by
      rw [fv]
      simp only [right, left, wrap]
      split <;> split <;> omega
    have el : wrap ((Forward E s).1.v.Left + 1) = s.v.Left := by
      rw [fv]
      simp only [wrap]
      omega
    have er : wrap ((Forward E s).1.v.Right + 1) = s.v.Right := by
      rw [fv]
      simp only [wrap]
      omega
    refine ⟨bok, ?_⟩
    rw [bv, ec, el, er, fv]
  · obtain ⟨_, bf, bv⟩ := Back_nil (E := E) hf (Back_ok_left hok)
    have hr2 : (Back E s).1.v.Right ≠ 0 := by
      rw [bv]
      simp only [wrap]
      omega
    obtain ⟨fok, _, fv⟩ := Forward_nil (E := E) bf hr2
    have ec : (Forward E (Back E s).1).1.v.Current = 1 := by
      rw [fv, bv]
      simp only [right, left, wrap]
      split <;> split <;> omega
    exact ⟨fok, ec, by rw [ec, h0]; decide⟩

/-- Witness for C20: `Back` then `Forward`, and `Forward` then `Back`, after two pushes
and one step back; `Back` then `Forward` at `current = 0`. -/
theorem C20_back_forward_inverse_witness :
    (Forward demoEnv (Back demoEnv
      (run demoEnv [.push 1 b1, .push 2 b2, .back] fresh)).1).1.v
      = (run demoEnv [.push 1 b1, .push 2 b2, .back] fresh).v ∧
    (Back demoEnv (Forward demoEnv
      (run demoEnv [.push 1 b1, .push 2 b2, .back] fresh)).1).1.v
      = (run demoEnv [.push 1 b1, .push 2 b2, .back] fresh).v ∧
    (Forward demoEnv (Back demoEnv
      { fresh with v := { fresh.v with Left := -1 } }).1).1.v.Current = 1 :=
  have h := C20_back_forward_inverse demoEnv
    (run demoEnv [.push 1 b1, .push 2 b2, .back] fresh) (by decide) (by decide) (by decide)
    (by decide)
  have g := C20_back_forward_inverse demoEnv { fresh with v := { fresh.v with Left := -1 } }
    (by decide) (by decide) (by decide) (by decide)
  ⟨(h.1 (by decide) (by decide) (by decide) (by decide)).2,
   (h.2.1 (by decide) (by decide) (by decide) (by decide)).2,
   (g.2.2 (by decide) (by decide) (by decide)).2.1⟩

end VersionFile
